import Mathlib

/-!
Shallow embedding of the Hosanna-Electric job status state machine and its
job-lifecycle orchestrator, together with proofs of the specified properties.

Statuses and roles are JavaScript strings, so they are embedded as `String`.
The transition table `STATUS_TRANSITIONS` is a JS object: looking up a key
that is absent yields `undefined`, embedded as `none`; the `BILLED` entry is
the empty object, embedded as `some []`.  Property accesses that would throw
a `TypeError` on `undefined` are embedded as `Option`-returning functions
(`none` = thrown).

This plain embedding treats table lookup as own-key lookup.  Real JS object
lookup also consults the prototype chain: reading or `in`-testing a key such
as "toString" on a plain object reaches the inherited `Object.prototype`
member (a truthy value), not `undefined`.  A second, refined embedding of
the evaluator (the `Js`-suffixed definitions further below, built on
`tableLookup`) models the prototype chain; `tableLookup_correspond` and the
agreement theorems prove that the two embeddings coincide whenever the
status strings involved are not `Object.prototype` member names, which
covers every input the orchestrator-level theorems exercise.
-/

abbrev Status := String
abbrev Role := String

/-- ROLES.ADMIN from backend config/constants. -/
def ADMIN : Role := "ADMIN"

/-- ROLES.OFFICE_MANAGER from backend config/constants. -/
def OFFICE_MANAGER : Role := "OFFICE_MANAGER"

/-- ROLES.TECHNICIAN from backend config/constants. -/
def TECHNICIAN : Role := "TECHNICIAN"

/-- JOB_STATUS.TENTATIVE. -/
def TENTATIVE : Status := "TENTATIVE"

/-- JOB_STATUS.CONFIRMED. -/
def CONFIRMED : Status := "CONFIRMED"

/-- JOB_STATUS.ASSIGNED. -/
def ASSIGNED : Status := "ASSIGNED"

/-- JOB_STATUS.IN_PROGRESS. -/
def IN_PROGRESS : Status := "IN_PROGRESS"

/-- JOB_STATUS.COMPLETED. -/
def COMPLETED : Status := "COMPLETED"

/-- JOB_STATUS.BILLED. -/
def BILLED : Status := "BILLED"

/-- The list of values of the JOB_STATUS object, in declaration order. -/
def JOB_STATUS_values : List Status :=
  [TENTATIVE, CONFIRMED, ASSIGNED, IN_PROGRESS, COMPLETED, BILLED]

/-- The STATUS_TRANSITIONS table from backend config/constants: for a current
status, the (target status, allowed roles) pairs in declaration order, or
`none` when the key is absent from the object (any string outside the six
declared statuses).  BILLED maps to the empty object. -/
def STATUS_TRANSITIONS (s : Status) : Option (List (Status × List Role)) :=
  if s = TENTATIVE then some [(CONFIRMED, [ADMIN])]
  else if s = CONFIRMED then some [(ASSIGNED, [ADMIN])]
  else if s = ASSIGNED then some [(IN_PROGRESS, [TECHNICIAN])]
  else if s = IN_PROGRESS then some [(COMPLETED, [TECHNICIAN])]
  else if s = COMPLETED then some [(BILLED, [OFFICE_MANAGER])]
  else if s = BILLED then some []
  else none

/-- Property lookup on an embedded JS object: the value at the key, or `none`
when the key is absent (JS `undefined`). -/
def lookupEdge (edges : List (Status × List Role)) (toStatus : Status) :
    Option (List Role) :=
  (edges.find? (fun p => p.1 = toStatus)).map Prod.snd

/-- JobStateMachine.isValidTransition: false on a self-transition, false when
the table has no entry for the current status, otherwise key membership of the
requested status in the entry. -/
def isValidTransition (currentStatus newStatus : Status) : Bool :=
  if currentStatus = newStatus then false
  else
    match STATUS_TRANSITIONS currentStatus with
    | none => false
    | some allowedTransitions => (lookupEdge allowedTransitions newStatus).isSome

/-- JobStateMachine.canRolePerformTransition.  After the isValidTransition
guard the source reads STATUS_TRANSITIONS[currentStatus][newStatus] and calls
allowedRoles.includes, which would throw on `undefined`; a throw is embedded
as `none`. -/
def canRolePerformTransition (currentStatus newStatus userRole : String) :
    Option Bool :=
  if !isValidTransition currentStatus newStatus then some false
  else
    match STATUS_TRANSITIONS currentStatus with
    | none => none
    | some edges =>
      match lookupEdge edges newStatus with
      | none => none
      | some allowedRoles => some (allowedRoles.contains userRole)

/-- JobStateMachine.getValidNextStatuses: Object.keys of the entry, or the
empty list when the entry is absent. -/
def getValidNextStatuses (currentStatus : Status) : List Status :=
  match STATUS_TRANSITIONS currentStatus with
  | none => []
  | some transitions => transitions.map Prod.fst

/-- JobStateMachine.getValidNextStatusesForRole: the keys of the entry whose
role list contains the user role, in declaration order. -/
def getValidNextStatusesForRole (currentStatus userRole : String) :
    List Status :=
  match STATUS_TRANSITIONS currentStatus with
  | none => []
  | some transitions =>
    (transitions.filter (fun p => p.2.contains userRole)).map Prod.fst

/-- The verdict object returned by JobStateMachine.validateTransition:
a `valid` boolean and an optional `error` message. -/
structure Verdict where
  valid : Bool
  error : Option String
deriving DecidableEq, Repr

/-- The joined valid-transitions text of the NoSuchEdge error message. -/
def validNextText (l : List Status) : String :=
  if l.length > 0 then String.intercalate ", " l else "none (terminal state)"

/-- The NoSuchEdge error message of validateTransition. -/
def noEdgeMsg (currentStatus newStatus : Status) : String :=
  "Invalid status transition from " ++ currentStatus ++ " to " ++ newStatus ++
    ". Valid transitions: " ++ validNextText (getValidNextStatuses currentStatus)

/-- The RoleNotAuthorized error message of validateTransition. -/
def roleMsg (userRole currentStatus newStatus : String)
    (allowedRoles : List Role) : String :=
  "Role " ++ userRole ++ " cannot transition job from " ++ currentStatus ++
    " to " ++ newStatus ++ ". Allowed roles: " ++
    String.intercalate ", " allowedRoles

/-- JobStateMachine.validateTransition: same-status check, then edge
existence, then role membership; the role branch reads
STATUS_TRANSITIONS[currentStatus][newStatus] unguarded, so a would-be throw
is embedded as `none`. -/
def validateTransition (currentStatus newStatus userRole : String) :
    Option Verdict :=
  if currentStatus = newStatus then
    some ⟨false, some "Job is already in this status"⟩
  else if !isValidTransition currentStatus newStatus then
    some ⟨false, some (noEdgeMsg currentStatus newStatus)⟩
  else
    match canRolePerformTransition currentStatus newStatus userRole with
    | none => none
    | some true => some ⟨true, none⟩
    | some false =>
      match STATUS_TRANSITIONS currentStatus with
      | none => none
      | some edges =>
        match lookupEdge edges newStatus with
        | none => none
        | some allowedRoles =>
          some ⟨false, some (roleMsg userRole currentStatus newStatus allowedRoles)⟩

/-- A status-history entry as pushed by the route handlers: fromStatus is
null only for the creation entry; changedBy is the acting user's id. -/
structure HistoryEntry where
  fromStatus : Option Status
  toStatus : Status
  changedBy : Nat
  notes : String
deriving DecidableEq, Repr

/-- The persisted Job record fields touched by the jobs routes. -/
structure Job where
  title : String
  status : Status
  statusHistory : List HistoryEntry
  assignedTechnician : Option Nat
  completedAt : Option Nat
  billedAt : Option Nat
  createdBy : Nat
  actualCost : Option Int
deriving DecidableEq, Repr

/-- An authenticated user as seen by the handlers: id, role and name. -/
structure User where
  id : Nat
  role : Role
  name : String
deriving DecidableEq, Repr

/-- Outcome of a job-mutating handler: `ok` carries the saved job; `denied`
carries the error message and the in-memory job object at the moment the
handler returned early (no save); `fault` is the catch-all 500 path reached
when the evaluator would throw. -/
inductive TransResult where
  | ok (job : Job)
  | denied (error : Option String) (job : Job)
  | fault (job : Job)
deriving DecidableEq, Repr

/-- POST /api/jobs: a fresh job in TENTATIVE with the single seed history
entry (fromStatus null, actor = creator, notes "Job created"). -/
def createJob (title : String) (creatorId : Nat) : Job :=
  { title := title
  , status := TENTATIVE
  , statusHistory := [⟨none, TENTATIVE, creatorId, "Job created"⟩]
  , assignedTechnician := none
  , completedAt := none
  , billedAt := none
  , createdBy := creatorId
  , actualCost := none }

/-- PATCH /api/jobs/:id/status, from the state-machine validation on: run the
evaluator; on denial return its error with the job untouched; then the
technician-must-be-assignee check; then push the history entry (fromStatus is
the status before the write), set the status, and set completedAt and billedAt
when the new status is COMPLETED and BILLED respectively.  `now` embeds
`new Date()`. -/
def transitionStatus (job : Job) (newStatus : Status) (user : User)
    (notes : Option String) (now : Nat) : TransResult :=
  match validateTransition job.status newStatus user.role with
  | none => TransResult.fault job
  | some validation =>
    if !validation.valid then TransResult.denied validation.error job
    else if user.role = TECHNICIAN ∧ job.assignedTechnician ≠ some user.id then
      TransResult.denied (some "You are not assigned to this job") job
    else
      TransResult.ok
        { job with
          statusHistory := job.statusHistory ++
            [⟨some job.status, newStatus, user.id,
              notes.getD ("Status changed from " ++ job.status ++ " to " ++ newStatus)⟩]
          , status := newStatus
          , completedAt :=
              if newStatus = COMPLETED then some now else job.completedAt
          , billedAt :=
              if newStatus = BILLED then some now else job.billedAt }

/-- PATCH /api/jobs/:id/assign: technician lookup, role check on the
technician, the CONFIRMED precondition, the evaluator on the
CONFIRMED -> ASSIGNED edge, then assignee write, history push and status
write.  `users` embeds User.findById. -/
def assignTechnician (users : Nat → Option User) (job : Job)
    (technicianId : Nat) (user : User) (notes : Option String) : TransResult :=
  match users technicianId with
  | none => TransResult.denied (some "Technician not found") job
  | some technician =>
    if technician.role ≠ TECHNICIAN then
      TransResult.denied (some "User is not a technician") job
    else if job.status ≠ CONFIRMED then
      TransResult.denied
        (some ("Job must be in CONFIRMED status to assign. Current status: " ++ job.status)) job
    else
      match validateTransition job.status ASSIGNED user.role with
      | none => TransResult.fault job
      | some validation =>
        if !validation.valid then TransResult.denied validation.error job
        else
          TransResult.ok
            { job with
              assignedTechnician := some technicianId
              , statusHistory := job.statusHistory ++
                  [⟨some job.status, ASSIGNED, user.id,
                    notes.getD ("Assigned to " ++ technician.name)⟩]
              , status := ASSIGNED }

/-- The body of a PUT /api/jobs/:id request, restricted to the fields the
embedding tracks, plus the status and statusHistory fields a caller may try
to smuggle through. -/
structure UpdateBody where
  title : Option String
  actualCost : Option Int
  status : Option Status
  statusHistory : Option (List HistoryEntry)
deriving DecidableEq, Repr

/-- findByIdAndUpdate with updateData: every field present in updateData is
written, any absent field is left alone. -/
def applyUpdateData (job : Job) (title : Option String)
    (actualCost : Option Int) : Job :=
  { job with
    title := title.getD job.title
    , actualCost :=
        match actualCost with
        | some v => some v
        | none => job.actualCost }

/-- PUT /api/jobs/:id: express-validator checks on the optional fields, then
the destructuring `const (status, statusHistory, ...updateData) = req.body`
drops status and statusHistory, and updateData alone is written to the job. -/
def updateJob (job : Job) (b : UpdateBody) : TransResult :=
  if b.title = some "" then
    TransResult.denied (some "Title cannot be empty") job
  else if (b.actualCost.getD 0) < 0 then
    TransResult.denied (some "Actual cost must be positive") job
  else
    TransResult.ok (applyUpdateData job b.title b.actualCost)

/-- JOB_STATUS.DISPATCHED exists only in the divergent variant of the status
set (frontend display config and the spec); the backend table has no such
key. -/
def DISPATCHED : Status := "DISPATCHED"

/-- Modelled from the spec: the backend PATCH /api/jobs/:id/reassign handler
is absent from the repository sources; only its frontend caller
(jobService.reassignTechnician) exists.  Per spec section 4.3 and the section
6 interface table it is admin-only, requires the current status to be one of
ASSIGNED, DISPATCHED, IN_PROGRESS (else WrongStatusForReassign), requires the
referenced technician to exist (else UnknownTechnician), and on success
replaces the assignee, appends a history entry with the prior status as
fromStatus, and resets the status to ASSIGNED. -/
def reassignTechnician (users : Nat → Option User) (job : Job)
    (technicianId : Nat) (user : User) (notes : Option String) : TransResult :=
  if user.role ≠ ADMIN then
    TransResult.denied (some "Only admins can reassign") job
  else if ¬(job.status = ASSIGNED ∨ job.status = DISPATCHED ∨
      job.status = IN_PROGRESS) then
    TransResult.denied
      (some ("Job must be in ASSIGNED, DISPATCHED or IN_PROGRESS status to reassign. Current status: " ++ job.status)) job
  else
    match users technicianId with
    | none => TransResult.denied (some "Technician not found") job
    | some technician =>
      TransResult.ok
        { job with
          assignedTechnician := some technicianId
          , statusHistory := job.statusHistory ++
              [⟨some job.status, ASSIGNED, user.id,
                notes.getD ("Reassigned to " ++ technician.name)⟩]
          , status := ASSIGNED }

/-- One job-mutating API call of the orchestrator, with its request data. -/
inductive Op where
  | trans (newStatus : Status) (user : User) (notes : Option String) (now : Nat)
  | assign (technicianId : Nat) (user : User) (notes : Option String)
  | update (b : UpdateBody)

/-- Persistence semantics of one call: `job.save()` runs only on the success
path, so the stored record is the handler's job exactly when the handler
returned ok, and the record before the call otherwise. -/
def applyOp (users : Nat → Option User) (job : Job) : Op → Job
  | Op.trans newStatus user notes now =>
    match transitionStatus job newStatus user notes now with
    | TransResult.ok j2 => j2
    | _ => job
  | Op.assign technicianId user notes =>
    match assignTechnician users job technicianId user notes with
    | TransResult.ok j2 => j2
    | _ => job
  | Op.update b =>
    match updateJob job b with
    | TransResult.ok j2 => j2
    | _ => job

/-- The stored job after a sequence of API calls. -/
def runOps (users : Nat → Option User) (job : Job) : List Op → Job
  | [] => job
  | op :: rest => runOps users (applyOp users job op) rest

/-- Whether one call is a successful status transition (update calls never
are: they do not touch the status or its history). -/
def opSucceeds (users : Nat → Option User) (job : Job) : Op → Bool
  | Op.trans newStatus user notes now =>
    match transitionStatus job newStatus user notes now with
    | TransResult.ok _ => true
    | _ => false
  | Op.assign technicianId user notes =>
    match assignTechnician users job technicianId user notes with
    | TransResult.ok _ => true
    | _ => false
  | Op.update _ => false

/-- The target status a call requests (ASSIGNED for an assignment call). -/
def targetOf : Op → Status
  | Op.trans newStatus _ _ _ => newStatus
  | Op.assign _ _ _ => ASSIGNED
  | Op.update _ => ASSIGNED

/-- Number of successful status transitions in a call sequence. -/
def countSuccesses (users : Nat → Option User) (job : Job) : List Op → Nat
  | [] => 0
  | op :: rest =>
    (if opSucceeds users job op then 1 else 0) +
      countSuccesses users (applyOp users job op) rest

/-- Target statuses of the successful transitions, in application order. -/
def successTargets (users : Nat → Option User) (job : Job) :
    List Op → List Status
  | [] => []
  | op :: rest =>
    (if opSucceeds users job op then [targetOf op] else []) ++
      successTargets users (applyOp users job op) rest

/-- A history is chained from `prev` when the first entry's fromStatus is
`prev` and each later entry's fromStatus is the previous entry's toStatus. -/
def chainedFrom : Option Status → List HistoryEntry → Bool
  | _, [] => true
  | prev, e :: rest => (e.fromStatus = prev) && chainedFrom (some e.toStatus) rest

/-- The toStatus of the last entry, or `prev` when the history is empty. -/
def lastTo : Option Status → List HistoryEntry → Option Status
  | prev, [] => prev
  | _, e :: rest => lastTo (some e.toStatus) rest

theorem ST_BILLED : STATUS_TRANSITIONS BILLED = some [] := by decide

/-- C1: for every status string S and every role string R, validating the
transition from S to S returns the invalid verdict whose reason is that the
job is already in this status, independent of the role and of whether the
table has an entry at S. -/
theorem c1_self_transition_always_same_status_denied (s : Status) (r : Role) :
    validateTransition s s r = some ⟨false, some "Job is already in this status"⟩ := by
  unfold validateTransition
  simp

/-- C2: BILLED is terminal: getValidNextStatuses BILLED is empty, its
valid-transitions text says terminal, and for every status X distinct from
BILLED and every role R the verdict is the NoSuchEdge denial carrying the
message that enumerates no valid transitions. -/
theorem c2_billed_terminal :
    getValidNextStatuses BILLED = [] ∧
    validNextText (getValidNextStatuses BILLED) = "none (terminal state)" ∧
    ∀ x r, x ≠ BILLED →
      validateTransition BILLED x r = some ⟨false, some (noEdgeMsg BILLED x)⟩ := by
  refine ⟨by decide, by decide, ?_⟩
  intro x r hx
  have h1 : ¬(BILLED = x) := fun h => hx h.symm
  have h2 : isValidTransition BILLED x = false := by
    unfold isValidTransition
    rw [if_neg h1, ST_BILLED]
    simp [lookupEdge]
  unfold validateTransition
  rw [if_neg h1]
  simp [h2]

theorem c2_billed_terminal_witness :
    TENTATIVE ≠ BILLED ∧
    validateTransition BILLED TENTATIVE ADMIN =
      some ⟨false, some (noEdgeMsg BILLED TENTATIVE)⟩ :=
  ⟨by decide, c2_billed_terminal.2.2 TENTATIVE ADMIN (by decide)⟩

/-- C3: the ASSIGNED to IN_PROGRESS edge exists but is gated to TECHNICIAN:
ADMIN gets the RoleNotAuthorized denial with the allowed-roles message, while
TECHNICIAN gets the allowed verdict. -/
theorem c3_role_gating_assigned_in_progress :
    validateTransition ASSIGNED IN_PROGRESS ADMIN =
      some ⟨false, some (roleMsg ADMIN ASSIGNED IN_PROGRESS [TECHNICIAN])⟩ ∧
    roleMsg ADMIN ASSIGNED IN_PROGRESS [TECHNICIAN] =
      "Role ADMIN cannot transition job from ASSIGNED to IN_PROGRESS. Allowed roles: TECHNICIAN" ∧
    validateTransition ASSIGNED IN_PROGRESS TECHNICIAN = some ⟨true, none⟩ := by
  refine ⟨by decide, by decide, by decide⟩

theorem validateTransition_valid_elim {c n r : String} {v : Verdict}
    (h : validateTransition c n r = some v) (hv : v.valid = true) :
    isValidTransition c n = true := by
  unfold validateTransition at h
  by_cases hcn : c = n
  · rw [if_pos hcn] at h
    injection h with h
    rw [← h] at hv
    simp at hv
  · rw [if_neg hcn] at h
    by_cases hiv : isValidTransition c n = true
    · exact hiv
    · simp only [Bool.not_eq_true] at hiv
      rw [hiv] at h
      simp at h
      rw [← h] at hv
      simp at hv

theorem transitionStatus_ok_elim {j : Job} {ns : Status} {u : User}
    {notes : Option String} {now : Nat} {j2 : Job}
    (h : transitionStatus j ns u notes now = TransResult.ok j2) :
    isValidTransition j.status ns = true ∧
    j2.statusHistory = j.statusHistory ++
      [⟨some j.status, ns, u.id,
        notes.getD ("Status changed from " ++ j.status ++ " to " ++ ns)⟩] ∧
    j2.status = ns ∧
    j2.completedAt = (if ns = COMPLETED then some now else j.completedAt) ∧
    j2.billedAt = (if ns = BILLED then some now else j.billedAt) ∧
    j2.assignedTechnician = j.assignedTechnician ∧
    j2.title = j.title ∧ j2.actualCost = j.actualCost := by
  unfold transitionStatus at h
  cases hv : validateTransition j.status ns u.role with
  | none => rw [hv] at h; simp at h
  | some v =>
    rw [hv] at h
    dsimp only at h
    by_cases hA : (!v.valid) = true
    · rw [if_pos hA] at h; simp at h
    · rw [if_neg hA] at h
      by_cases hB : u.role = TECHNICIAN ∧ j.assignedTechnician ≠ some u.id
      · rw [if_pos hB] at h; simp at h
      · rw [if_neg hB] at h
        rw [TransResult.ok.injEq] at h
        subst h
        have h1 : v.valid = true := by simpa using hA
        exact ⟨validateTransition_valid_elim hv h1, rfl, rfl, rfl, rfl, rfl, rfl, rfl⟩

theorem assignTechnician_ok_elim {users : Nat → Option User} {j : Job}
    {tid : Nat} {u : User} {notes : Option String} {j2 : Job}
    (h : assignTechnician users j tid u notes = TransResult.ok j2) :
    j.status = CONFIRMED ∧
    ∃ tech, users tid = some tech ∧ tech.role = TECHNICIAN ∧
      j2.statusHistory = j.statusHistory ++
        [⟨some j.status, ASSIGNED, u.id,
          notes.getD ("Assigned to " ++ tech.name)⟩] ∧
      j2.status = ASSIGNED ∧
      j2.assignedTechnician = some tid ∧
      j2.completedAt = j.completedAt ∧ j2.billedAt = j.billedAt ∧
      j2.title = j.title ∧ j2.actualCost = j.actualCost := by
  unfold assignTechnician at h
  cases hu : users tid with
  | none => rw [hu] at h; simp at h
  | some tech =>
    rw [hu] at h
    dsimp only at h
    by_cases hrole : tech.role ≠ TECHNICIAN
    · rw [if_pos hrole] at h; simp at h
    · rw [if_neg hrole] at h
      by_cases hstat : j.status ≠ CONFIRMED
      · rw [if_pos hstat] at h; simp at h
      · rw [if_neg hstat] at h
        cases hv : validateTransition j.status ASSIGNED u.role with
        | none => rw [hv] at h; simp at h
        | some v =>
          rw [hv] at h
          dsimp only at h
          by_cases hA : (!v.valid) = true
          · rw [if_pos hA] at h; simp at h
          · rw [if_neg hA] at h
            rw [TransResult.ok.injEq] at h
            subst h
            exact ⟨not_ne_iff.mp hstat, tech, rfl, not_ne_iff.mp hrole,
              rfl, rfl, rfl, rfl, rfl, rfl, rfl⟩

theorem updateJob_ok_elim {j : Job} {b : UpdateBody} {j2 : Job}
    (h : updateJob j b = TransResult.ok j2) :
    j2.status = j.status ∧ j2.statusHistory = j.statusHistory ∧
    j2.completedAt = j.completedAt ∧ j2.billedAt = j.billedAt ∧
    j2.assignedTechnician = j.assignedTechnician := by
  unfold updateJob at h
  by_cases h1 : b.title = some ""
  · rw [if_pos h1] at h; simp at h
  · rw [if_neg h1] at h
    by_cases h2 : (b.actualCost.getD 0) < 0
    · rw [if_pos h2] at h; simp at h
    · rw [if_neg h2] at h
      rw [TransResult.ok.injEq] at h
      subst h
      exact ⟨rfl, rfl, rfl, rfl, rfl⟩

theorem applyOp_cases (users : Nat → Option User) (j : Job) (op : Op) :
    (opSucceeds users j op = true ∧ ∃ e : HistoryEntry,
       e.fromStatus = some j.status ∧ e.toStatus = targetOf op ∧
       (applyOp users j op).statusHistory = j.statusHistory ++ [e] ∧
       (applyOp users j op).status = targetOf op) ∨
    (opSucceeds users j op = false ∧
       (applyOp users j op).statusHistory = j.statusHistory ∧
       (applyOp users j op).status = j.status) := by
  cases op with
  | trans ns u notes now =>
    cases h : transitionStatus j ns u notes now with
    | ok j2 =>
      left
      obtain ⟨_, hH, hS, _⟩ := transitionStatus_ok_elim h
      refine ⟨by simp [opSucceeds, h],
        ⟨some j.status, ns, u.id,
          notes.getD ("Status changed from " ++ j.status ++ " to " ++ ns)⟩,
        rfl, rfl, ?_, ?_⟩
      · simp only [applyOp, h]
        exact hH
      · simp only [applyOp, h]
        exact hS
    | denied e jm =>
      right
      exact ⟨by simp [opSucceeds, h], by simp [applyOp, h], by simp [applyOp, h]⟩
    | fault jm =>
      right
      exact ⟨by simp [opSucceeds, h], by simp [applyOp, h], by simp [applyOp, h]⟩
  | assign tid u notes =>
    cases h : assignTechnician users j tid u notes with
    | ok j2 =>
      left
      obtain ⟨hst, tech, hu2, hrole, hH, hS, _⟩ := assignTechnician_ok_elim h
      refine ⟨by simp [opSucceeds, h],
        ⟨some j.status, ASSIGNED, u.id, notes.getD ("Assigned to " ++ tech.name)⟩,
        rfl, rfl, ?_, ?_⟩
      · simp only [applyOp, h]
        exact hH
      · simp only [applyOp, h]
        exact hS
    | denied e jm =>
      right
      exact ⟨by simp [opSucceeds, h], by simp [applyOp, h], by simp [applyOp, h]⟩
    | fault jm =>
      right
      exact ⟨by simp [opSucceeds, h], by simp [applyOp, h], by simp [applyOp, h]⟩
  | update b =>
    right
    refine ⟨rfl, ?_, ?_⟩ <;>
    · cases h : updateJob j b with
      | ok j2 =>
        obtain ⟨hS, hH, _⟩ := updateJob_ok_elim h
        simp only [applyOp, h]
        first
          | exact hH
          | exact hS
      | denied e jm => simp [applyOp, h]
      | fault jm => simp [applyOp, h]

theorem chainedFrom_append (h : List HistoryEntry) (e : HistoryEntry) :
    ∀ p : Option Status,
      chainedFrom p (h ++ [e]) =
        (chainedFrom p h && decide (e.fromStatus = lastTo p h)) := by
  induction h with
  | nil =>
    intro p
    simp [chainedFrom, lastTo]
  | cons f t ih =>
    intro p
    simp only [List.cons_append, chainedFrom, lastTo, List.append_eq, ih,
      Bool.and_assoc]

theorem lastTo_append (h : List HistoryEntry) (e : HistoryEntry) :
    ∀ p : Option Status, lastTo p (h ++ [e]) = some e.toStatus := by
  induction h with
  | nil => intro p; simp [lastTo]
  | cons f t ih => intro p; simp only [List.cons_append, lastTo, List.append_eq, ih]

/-- The history invariant maintained by the orchestrator: the history is
chained (first entry from null, each later entry from the previous entry's
target) and ends at the job's current status. -/
def HistInv (j : Job) : Prop :=
  chainedFrom none j.statusHistory = true ∧
  lastTo none j.statusHistory = some j.status

theorem histInv_applyOp (users : Nat → Option User) {j : Job}
    (hj : HistInv j) (op : Op) : HistInv (applyOp users j op) := by
  rcases applyOp_cases users j op with
    ⟨hs, e, hef, het, hH, hS⟩ | ⟨hs, hH, hS⟩
  · constructor
    · rw [hH, chainedFrom_append, hj.1, hj.2, hef]
      simp
    · rw [hH, lastTo_append, het, hS]
  · constructor
    · rw [hH]; exact hj.1
    · rw [hH, hS]; exact hj.2

theorem runOps_append (users : Nat → Option User) (a b : List Op) :
    ∀ j : Job, runOps users j (a ++ b) = runOps users (runOps users j a) b := by
  induction a with
  | nil => intro j; rfl
  | cons op rest ih =>
    intro j
    simp only [List.cons_append, runOps, List.append_eq, ih]

theorem runOps_hist (users : Nat → Option User) (ops : List Op) :
    ∀ j : Job, HistInv j →
      HistInv (runOps users j ops) ∧
      (runOps users j ops).statusHistory.length =
        j.statusHistory.length + countSuccesses users j ops ∧
      (runOps users j ops).statusHistory.map HistoryEntry.toStatus =
        j.statusHistory.map HistoryEntry.toStatus ++ successTargets users j ops ∧
      ∃ t, (runOps users j ops).statusHistory = j.statusHistory ++ t := by
  induction ops with
  | nil =>
    intro j hj
    refine ⟨hj, by simp [runOps, countSuccesses], by simp [runOps, successTargets], [], by simp [runOps]⟩
  | cons op rest ih =>
    intro j hj
    have hj2 := histInv_applyOp users hj op
    obtain ⟨hInv, hlen, hmap, t, ht⟩ := ih (applyOp users j op) hj2
    rcases applyOp_cases users j op with
      ⟨hs, e, hef, het, hH, hS⟩ | ⟨hs, hH, hS⟩
    · refine ⟨hInv, ?_, ?_, ?_⟩
      · simp only [runOps, countSuccesses, hs]
        rw [hlen, hH]
        simp
        omega
      · simp only [runOps, successTargets, hs]
        rw [hmap, hH]
        simp [het]
      · refine ⟨e :: t, ?_⟩
        simp only [runOps]
        rw [ht, hH]
        simp
    · refine ⟨hInv, ?_, ?_, ?_⟩
      · simp only [runOps, countSuccesses, hs]
        rw [hlen, hH]
        simp
      · simp only [runOps, successTargets, hs]
        rw [hmap, hH]
        simp
      · refine ⟨t, ?_⟩
        simp only [runOps]
        rw [ht, hH]

theorem histInv_createJob (title : String) (c : Nat) :
    HistInv (createJob title c) := by
  constructor
  · rfl
  · rfl

/-- A concrete user directory used to instantiate the run-level theorems. -/
def usersEx : Nat → Option User := fun n =>
  if n = 1 then some ⟨1, TECHNICIAN, "Tina"⟩
  else if n = 2 then some ⟨2, ADMIN, "Ada"⟩
  else if n = 3 then some ⟨3, OFFICE_MANAGER, "Omar"⟩
  else none

/-- A concrete admin user. -/
def adminEx : User := ⟨2, ADMIN, "Ada"⟩

/-- A concrete technician user. -/
def techEx : User := ⟨1, TECHNICIAN, "Tina"⟩

/-- Calls taking a fresh job to IN_PROGRESS. -/
def opsEx : List Op :=
  [Op.trans CONFIRMED adminEx none 10,
   Op.assign 1 adminEx none,
   Op.trans IN_PROGRESS techEx none 12]

/-- opsEx followed by the technician completing the job at time 13. -/
def opsC : List Op := opsEx ++ [Op.trans COMPLETED techEx none 13]

/-- C4: a fresh job has exactly the one creation entry (fromStatus null,
actor = creator); after a run of API calls the history length is the number
of successful transitions plus one, the entry targets are TENTATIVE followed
by the requested targets of the successful transitions in application order,
the history is chained (each entry's fromStatus is the previous entry's
toStatus) and ends at the current status, any extension of the run only
appends (no entry is removed, reordered or mutated), and each single
successful transition appends exactly one entry whose fromStatus is the
status before the call and whose toStatus is the requested status. -/
theorem c4_audit_trail_append_only (title : String) (c : Nat)
    (users : Nat → Option User) (ops more : List Op) :
    (createJob title c).statusHistory = [⟨none, TENTATIVE, c, "Job created"⟩] ∧
    (runOps users (createJob title c) ops).statusHistory.length =
      countSuccesses users (createJob title c) ops + 1 ∧
    (runOps users (createJob title c) ops).statusHistory.map HistoryEntry.toStatus =
      TENTATIVE :: successTargets users (createJob title c) ops ∧
    chainedFrom none (runOps users (createJob title c) ops).statusHistory = true ∧
    lastTo none (runOps users (createJob title c) ops).statusHistory =
      some (runOps users (createJob title c) ops).status ∧
    (∃ t, (runOps users (createJob title c) (ops ++ more)).statusHistory =
      (runOps users (createJob title c) ops).statusHistory ++ t) ∧
    ∀ ns u notes now j2,
      transitionStatus (runOps users (createJob title c) ops) ns u notes now =
        TransResult.ok j2 →
      ∃ e : HistoryEntry,
        j2.statusHistory =
          (runOps users (createJob title c) ops).statusHistory ++ [e] ∧
        e.fromStatus = some (runOps users (createJob title c) ops).status ∧
        e.toStatus = ns ∧ e.changedBy = u.id := by
  have h0 := histInv_createJob title c
  obtain ⟨hInv, hlen, hmap, ht⟩ := runOps_hist users ops (createJob title c) h0
  refine ⟨rfl, ?_, ?_, hInv.1, hInv.2, ?_, ?_⟩
  · rw [hlen]
    simp [createJob]
    omega
  · rw [hmap]
    simp [createJob, TENTATIVE]
  · rw [runOps_append]
    exact (runOps_hist users more _ hInv).2.2.2
  · intro ns u notes now j2 hok
    obtain ⟨_, hH, _⟩ := transitionStatus_ok_elim hok
    exact ⟨⟨some (runOps users (createJob title c) ops).status, ns, u.id,
      notes.getD ("Status changed from " ++
        (runOps users (createJob title c) ops).status ++ " to " ++ ns)⟩,
      hH, rfl, rfl, rfl⟩

theorem c4_audit_trail_append_only_witness :
    ∃ e : HistoryEntry,
      (runOps usersEx (createJob "W" 9) opsC).statusHistory =
        (runOps usersEx (createJob "W" 9) opsEx).statusHistory ++ [e] ∧
      e.fromStatus = some (runOps usersEx (createJob "W" 9) opsEx).status ∧
      e.toStatus = COMPLETED ∧ e.changedBy = techEx.id :=
  (c4_audit_trail_append_only "W" 9 usersEx opsEx []).2.2.2.2.2.2
    COMPLETED techEx none 13 (runOps usersEx (createJob "W" 9) opsC)
    (by decide)

/-- C7: assigning a technician fails with the UnknownTechnician error when
the referenced user does not exist, with the WrongRole error when that user
is not a technician, with the distinct CONFIRMED-precondition error when the
job is not CONFIRMED, and otherwise behaves as the evaluator's verdict on
the CONFIRMED to ASSIGNED edge dictates: a denial surfaces the verdict's
error, and on an allowed verdict the job gets the technician assigned, one
appended CONFIRMED to ASSIGNED history entry, and status ASSIGNED. -/
theorem c7_assign_technician_compound (users : Nat → Option User) (j : Job)
    (tid : Nat) (u : User) (notes : Option String) :
    (users tid = none →
      assignTechnician users j tid u notes =
        TransResult.denied (some "Technician not found") j) ∧
    (∀ tech, users tid = some tech → tech.role ≠ TECHNICIAN →
      assignTechnician users j tid u notes =
        TransResult.denied (some "User is not a technician") j) ∧
    (∀ tech, users tid = some tech → tech.role = TECHNICIAN →
      j.status ≠ CONFIRMED →
      assignTechnician users j tid u notes =
        TransResult.denied
          (some ("Job must be in CONFIRMED status to assign. Current status: "
            ++ j.status)) j) ∧
    (∀ tech, users tid = some tech → tech.role = TECHNICIAN →
      j.status = CONFIRMED →
      ∀ v, validateTransition CONFIRMED ASSIGNED u.role = some v →
        (v.valid = false →
          assignTechnician users j tid u notes =
            TransResult.denied v.error j) ∧
        (v.valid = true →
          assignTechnician users j tid u notes =
            TransResult.ok
              { j with
                assignedTechnician := some tid
                , statusHistory := j.statusHistory ++
                    [⟨some CONFIRMED, ASSIGNED, u.id,
                      notes.getD ("Assigned to " ++ tech.name)⟩]
                , status := ASSIGNED })) := by
  refine ⟨?_, ?_, ?_, ?_⟩
  · intro hu
    unfold assignTechnician
    rw [hu]
  · intro tech hu hrole
    unfold assignTechnician
    rw [hu]
    dsimp only
    rw [if_pos hrole]
  · intro tech hu hrole hstat
    unfold assignTechnician
    rw [hu]
    dsimp only
    rw [if_neg (not_not_intro hrole), if_pos hstat]
  · intro tech hu hrole hstat v hv
    constructor
    · intro hvalid
      unfold assignTechnician
      rw [hu]
      dsimp only
      rw [if_neg (not_not_intro hrole), if_neg (not_not_intro hstat), hstat, hv]
      dsimp only
      rw [if_pos (by rw [hvalid]; rfl)]
    · intro hvalid
      unfold assignTechnician
      rw [hu]
      dsimp only
      rw [if_neg (not_not_intro hrole), if_neg (not_not_intro hstat), hstat, hv]
      dsimp only
      rw [if_neg (by rw [hvalid]; simp)]

theorem c7_assign_technician_compound_witness :
    (assignTechnician usersEx
        ⟨"W", CONFIRMED, [], none, none, none, 9, none⟩ 1 adminEx none =
      TransResult.ok
        { title := "W", status := ASSIGNED,
          statusHistory :=
            [⟨some CONFIRMED, ASSIGNED, adminEx.id, "Assigned to Tina"⟩],
          assignedTechnician := some 1, completedAt := none, billedAt := none,
          createdBy := 9, actualCost := none }) ∧
    (assignTechnician usersEx
        ⟨"W", TENTATIVE, [], none, none, none, 9, none⟩ 1 adminEx none =
      TransResult.denied
        (some ("Job must be in CONFIRMED status to assign. Current status: "
          ++ TENTATIVE))
        ⟨"W", TENTATIVE, [], none, none, none, 9, none⟩) ∧
    (assignTechnician usersEx
        ⟨"W", CONFIRMED, [], none, none, none, 9, none⟩ 2 adminEx none =
      TransResult.denied (some "User is not a technician")
        ⟨"W", CONFIRMED, [], none, none, none, 9, none⟩) ∧
    (assignTechnician usersEx
        ⟨"W", CONFIRMED, [], none, none, none, 9, none⟩ 42 adminEx none =
      TransResult.denied (some "Technician not found")
        ⟨"W", CONFIRMED, [], none, none, none, 9, none⟩) := by
  refine ⟨?_, ?_, ?_, ?_⟩
  · have h := ((c7_assign_technician_compound usersEx
      ⟨"W", CONFIRMED, [], none, none, none, 9, none⟩ 1 adminEx none).2.2.2
      ⟨1, TECHNICIAN, "Tina"⟩ (by decide) rfl rfl ⟨true, none⟩ (by decide)).2 rfl
    exact h.trans (by decide)
  · exact (c7_assign_technician_compound usersEx
      ⟨"W", TENTATIVE, [], none, none, none, 9, none⟩ 1 adminEx none).2.2.1
      ⟨1, TECHNICIAN, "Tina"⟩ (by decide) rfl (by decide)
  · exact (c7_assign_technician_compound usersEx
      ⟨"W", CONFIRMED, [], none, none, none, 9, none⟩ 2 adminEx none).2.1
      ⟨2, ADMIN, "Ada"⟩ (by decide) (by decide)
  · exact (c7_assign_technician_compound usersEx
      ⟨"W", CONFIRMED, [], none, none, none, 9, none⟩ 42 adminEx none).1
      (by decide)

/-- C8 counterexample: a PUT body that smuggles a status field (and nothing
else) is not rejected: the handler returns success with the job unchanged,
its TENTATIVE status and its history intact, so the claim that such a
request is returned as an error is false on this input. -/
theorem c8_counterexample_status_field_not_rejected :
    updateJob (createJob "Fix panel" 0)
        ⟨none, none, some BILLED, some []⟩ =
      TransResult.ok (createJob "Fix panel" 0) := by
  decide

/-- C8 amended: the update handler never changes status or statusHistory,
and a submitted status or statusHistory field is silently stripped rather
than rejected: the handler's outcome is identical to the same request
without those fields, on success all status-machine fields are unchanged,
and denials (which arise only from the other fields' validation) leave the
job untouched. -/
theorem c8_update_strips_status_fields (j : Job) (b : UpdateBody) :
    updateJob j b = updateJob j { b with status := none, statusHistory := none } ∧
    (∀ j2, updateJob j b = TransResult.ok j2 →
      j2.status = j.status ∧ j2.statusHistory = j.statusHistory ∧
      j2.completedAt = j.completedAt ∧ j2.billedAt = j.billedAt ∧
      j2.assignedTechnician = j.assignedTechnician) ∧
    (∀ e jm, updateJob j b = TransResult.denied e jm → jm = j) := by
  refine ⟨rfl, ?_, ?_⟩
  · intro j2 h
    exact updateJob_ok_elim h
  · intro e jm h
    unfold updateJob at h
    by_cases h1 : b.title = some ""
    · rw [if_pos h1] at h
      injection h with _ h
      exact h.symm
    · rw [if_neg h1] at h
      by_cases h2 : (b.actualCost.getD 0) < 0
      · rw [if_pos h2] at h
        injection h with _ h
        exact h.symm
      · rw [if_neg h2] at h
        simp at h

theorem c8_update_strips_status_fields_witness :
    (updateJob (createJob "Fix panel" 0) ⟨some "New", none, some BILLED, none⟩ =
      updateJob (createJob "Fix panel" 0)
        { title := some "New", actualCost := none,
          status := none, statusHistory := none }) ∧
    ((applyUpdateData (createJob "Fix panel" 0) (some "New") none).status =
        (createJob "Fix panel" 0).status ∧
      (applyUpdateData (createJob "Fix panel" 0) (some "New") none).statusHistory =
        (createJob "Fix panel" 0).statusHistory ∧
      (applyUpdateData (createJob "Fix panel" 0) (some "New") none).completedAt =
        (createJob "Fix panel" 0).completedAt ∧
      (applyUpdateData (createJob "Fix panel" 0) (some "New") none).billedAt =
        (createJob "Fix panel" 0).billedAt ∧
      (applyUpdateData (createJob "Fix panel" 0) (some "New") none).assignedTechnician =
        (createJob "Fix panel" 0).assignedTechnician) ∧
    (createJob "Fix panel" 0) = (createJob "Fix panel" 0) :=
  ⟨(c8_update_strips_status_fields (createJob "Fix panel" 0)
      ⟨some "New", none, some BILLED, none⟩).1,
   (c8_update_strips_status_fields (createJob "Fix panel" 0)
      ⟨some "New", none, some BILLED, none⟩).2.1
      (applyUpdateData (createJob "Fix panel" 0) (some "New") none) (by decide),
   (c8_update_strips_status_fields (createJob "Fix panel" 0)
      ⟨some "", none, none, none⟩).2.2 (some "Title cannot be empty")
      (createJob "Fix panel" 0) (by decide)⟩

/-- A second user directory containing the replacement technician Tess. -/
def usersEx2 : Nat → Option User := fun n =>
  if n = 1 then some ⟨1, TECHNICIAN, "Tina"⟩
  else if n = 4 then some ⟨4, TECHNICIAN, "Tess"⟩
  else none

/-- C9: (modelled from the spec, the backend reassign route being absent from
the sources) for an admin acting user, whenever the job's current status is
one of ASSIGNED, DISPATCHED, IN_PROGRESS and the referenced technician
exists, reassigning replaces the assignee, appends a history entry whose
fromStatus is the prior status, and resets the status to ASSIGNED; for any
other current status it fails with the WrongStatusForReassign precondition
error and the job is untouched. -/
theorem c9_reassign_resets_to_assigned (users : Nat → Option User) (j : Job)
    (tid : Nat) (u : User) (notes : Option String) (hadmin : u.role = ADMIN) :
    ((j.status = ASSIGNED ∨ j.status = DISPATCHED ∨ j.status = IN_PROGRESS) →
      ∀ tech, users tid = some tech →
        reassignTechnician users j tid u notes =
          TransResult.ok
            { j with
              assignedTechnician := some tid
              , statusHistory := j.statusHistory ++
                  [⟨some j.status, ASSIGNED, u.id,
                    notes.getD ("Reassigned to " ++ tech.name)⟩]
              , status := ASSIGNED }) ∧
    (¬(j.status = ASSIGNED ∨ j.status = DISPATCHED ∨ j.status = IN_PROGRESS) →
      reassignTechnician users j tid u notes =
        TransResult.denied
          (some ("Job must be in ASSIGNED, DISPATCHED or IN_PROGRESS status to reassign. Current status: "
            ++ j.status)) j) := by
  constructor
  · intro hstat tech hu
    unfold reassignTechnician
    rw [if_neg (not_not_intro hadmin), if_neg (not_not_intro hstat), hu]
  · intro hstat
    unfold reassignTechnician
    rw [if_neg (not_not_intro hadmin), if_pos hstat]

theorem c9_reassign_resets_to_assigned_witness :
    (reassignTechnician usersEx2
        ⟨"W", DISPATCHED, [], some 1, none, none, 9, none⟩ 4 adminEx none =
      TransResult.ok
        { title := "W", status := ASSIGNED,
          statusHistory :=
            [⟨some DISPATCHED, ASSIGNED, adminEx.id, "Reassigned to Tess"⟩],
          assignedTechnician := some 4, completedAt := none, billedAt := none,
          createdBy := 9, actualCost := none }) ∧
    (reassignTechnician usersEx2
        ⟨"W", COMPLETED, [], some 1, none, none, 9, none⟩ 4 adminEx none =
      TransResult.denied
        (some ("Job must be in ASSIGNED, DISPATCHED or IN_PROGRESS status to reassign. Current status: "
          ++ COMPLETED))
        ⟨"W", COMPLETED, [], some 1, none, none, 9, none⟩) := by
  constructor
  · have h := (c9_reassign_resets_to_assigned usersEx2
      ⟨"W", DISPATCHED, [], some 1, none, none, 9, none⟩ 4 adminEx none
      rfl).1 (by decide) ⟨4, TECHNICIAN, "Tess"⟩ (by decide)
    exact h.trans (by decide)
  · exact (c9_reassign_resets_to_assigned usersEx2
      ⟨"W", COMPLETED, [], some 1, none, none, 9, none⟩ 4 adminEx none
      rfl).2 (by decide)

/-- The own property names of Object.prototype.  Every plain JS object
inherits these through the prototype chain: the `in` operator reports them
as present, and a property read returns the inherited member (a function,
or for __proto__ an object) — a truthy value, not undefined. -/
def PROTO_KEYS : List String :=
  ["constructor", "hasOwnProperty", "isPrototypeOf", "propertyIsEnumerable",
   "toLocaleString", "toString", "valueOf", "__defineGetter__",
   "__defineSetter__", "__lookupGetter__", "__lookupSetter__", "__proto__"]

/-- Property names the `in` operator sees on an inherited Object.prototype
member (a function): its own length and name, the Function.prototype
members, and the Object.prototype members again.  No theorem below depends
on the exact contents of this list beyond "name" being in it; it exists to
make the refined embedding total. -/
def FUNCTION_IN_KEYS : List String :=
  ["length", "name", "apply", "bind", "call", "arguments", "caller"] ++
    PROTO_KEYS

/-- Result of the JS read STATUS_TRANSITIONS[currentStatus] in the refined
embedding: a transitions object from the table (own key), an inherited
Object.prototype member reached through the prototype chain, or undefined. -/
inductive TableVal where
  | obj (edges : List (Status × List Role))
  | protoMember (name : String)
  | undef
deriving DecidableEq, Repr

/-- Result of the JS read allowedTransitions[newStatus] on a transitions
object: a roles array (own key), an inherited Object.prototype member, or
undefined. -/
inductive EdgeVal where
  | arr (roles : List Role)
  | protoMember (name : String)
  | undef
deriving DecidableEq, Repr

/-- STATUS_TRANSITIONS[s] with JS lookup semantics: the six statuses are the
own keys; any Object.prototype member name is found on the prototype chain;
everything else is undefined. -/
def tableLookup (s : Status) : TableVal :=
  if s = TENTATIVE then TableVal.obj [(CONFIRMED, [ADMIN])]
  else if s = CONFIRMED then TableVal.obj [(ASSIGNED, [ADMIN])]
  else if s = ASSIGNED then TableVal.obj [(IN_PROGRESS, [TECHNICIAN])]
  else if s = IN_PROGRESS then TableVal.obj [(COMPLETED, [TECHNICIAN])]
  else if s = COMPLETED then TableVal.obj [(BILLED, [OFFICE_MANAGER])]
  else if s = BILLED then TableVal.obj []
  else if s ∈ PROTO_KEYS then TableVal.protoMember s
  else TableVal.undef

/-- The `key in obj` test on a transitions object: own keys or the
prototype chain. -/
def edgeIn (key : String) (edges : List (Status × List Role)) : Bool :=
  (lookupEdge edges key).isSome || decide (key ∈ PROTO_KEYS)

/-- The read obj[key] on a transitions object: the own roles array, the
inherited member for a prototype name, or undefined. -/
def edgeRead (key : String) (edges : List (Status × List Role)) : EdgeVal :=
  match lookupEdge edges key with
  | some roles => EdgeVal.arr roles
  | none => if key ∈ PROTO_KEYS then EdgeVal.protoMember key else EdgeVal.undef

/-- JobStateMachine.isValidTransition under JS lookup semantics: an
undefined entry is falsy (early false); an object entry answers the `in`
test including the prototype chain; an inherited-member entry is truthy, so
the guard passes and `in` is answered on that function value. -/
def isValidTransitionJs (currentStatus newStatus : Status) : Bool :=
  if currentStatus = newStatus then false
  else
    match tableLookup currentStatus with
    | TableVal.undef => false
    | TableVal.obj edges => edgeIn newStatus edges
    | TableVal.protoMember _ => decide (newStatus ∈ FUNCTION_IN_KEYS)

/-- JobStateMachine.canRolePerformTransition under JS lookup semantics.
After the guard, the source reads STATUS_TRANSITIONS[currentStatus]
[newStatus] and calls allowedRoles.includes on it: only an own roles array
supports includes; on an inherited member or undefined the call throws
(`none`).  When the current status itself names an inherited member the
subsequent evaluation applies array operations to that function's
properties and the enclosing validateTransition throws on every such path;
the embedding folds these into `none`, and no theorem below evaluates that
branch. -/
def canRolePerformTransitionJs (currentStatus newStatus userRole : String) :
    Option Bool :=
  if !isValidTransitionJs currentStatus newStatus then some false
  else
    match tableLookup currentStatus with
    | TableVal.undef => none
    | TableVal.obj edges =>
      match edgeRead newStatus edges with
      | EdgeVal.arr allowedRoles => some (allowedRoles.contains userRole)
      | EdgeVal.protoMember _ => none
      | EdgeVal.undef => none
    | TableVal.protoMember _ => none

/-- JobStateMachine.getValidNextStatuses under JS semantics: Object.keys
lists own enumerable keys only, and an inherited member (truthy) has no own
enumerable properties, so both the undefined and the inherited cases yield
the empty list. -/
def getValidNextStatusesJs (currentStatus : Status) : List Status :=
  match tableLookup currentStatus with
  | TableVal.obj edges => edges.map Prod.fst
  | TableVal.protoMember _ => []
  | TableVal.undef => []

/-- JobStateMachine.getValidNextStatusesForRole under JS semantics:
Object.entries likewise sees own enumerable keys only. -/
def getValidNextStatusesForRoleJs (currentStatus userRole : String) :
    List Status :=
  match tableLookup currentStatus with
  | TableVal.obj edges =>
    (edges.filter (fun p => p.2.contains userRole)).map Prod.fst
  | TableVal.protoMember _ => []
  | TableVal.undef => []

/-- The NoSuchEdge message under JS semantics. -/
def noEdgeMsgJs (currentStatus newStatus : Status) : String :=
  "Invalid status transition from " ++ currentStatus ++ " to " ++ newStatus ++
    ". Valid transitions: " ++
    validNextText (getValidNextStatusesJs currentStatus)

/-- JobStateMachine.validateTransition under JS lookup semantics: the role
branch reads STATUS_TRANSITIONS[currentStatus][newStatus] and calls
allowedRoles.join, which only an own roles array supports; on any inherited
or undefined value the evaluation throws (`none`). -/
def validateTransitionJs (currentStatus newStatus userRole : String) :
    Option Verdict :=
  if currentStatus = newStatus then
    some ⟨false, some "Job is already in this status"⟩
  else if !isValidTransitionJs currentStatus newStatus then
    some ⟨false, some (noEdgeMsgJs currentStatus newStatus)⟩
  else
    match canRolePerformTransitionJs currentStatus newStatus userRole with
    | none => none
    | some true => some ⟨true, none⟩
    | some false =>
      match tableLookup currentStatus with
      | TableVal.obj edges =>
        match edgeRead newStatus edges with
        | EdgeVal.arr allowedRoles =>
          some ⟨false,
            some (roleMsg userRole currentStatus newStatus allowedRoles)⟩
        | EdgeVal.protoMember _ => none
        | EdgeVal.undef => none
      | TableVal.protoMember _ => none
      | TableVal.undef => none

theorem tableLookup_correspond (s : String) (hs : s ∉ PROTO_KEYS) :
    tableLookup s = (match STATUS_TRANSITIONS s with
      | some e => TableVal.obj e
      | none => TableVal.undef) := by
  unfold tableLookup STATUS_TRANSITIONS
  split_ifs with h1 h2 h3 h4 h5 h6
  all_goals rfl

theorem evaluatorJs_agree (c n r : String) (hc : c ∉ PROTO_KEYS)
    (hn : n ∉ PROTO_KEYS) :
    isValidTransitionJs c n = isValidTransition c n ∧
    getValidNextStatusesJs c = getValidNextStatuses c ∧
    getValidNextStatusesForRoleJs c r = getValidNextStatusesForRole c r ∧
    canRolePerformTransitionJs c n r = canRolePerformTransition c n r ∧
    validateTransitionJs c n r = validateTransition c n r := by
  have htl := tableLookup_correspond c hc
  have hIV : isValidTransitionJs c n = isValidTransition c n := by
    unfold isValidTransitionJs isValidTransition
    rw [htl]
    by_cases hcn : c = n
    · rw [if_pos hcn, if_pos hcn]
    · rw [if_neg hcn, if_neg hcn]
      cases hST : STATUS_TRANSITIONS c with
      | none => rfl
      | some edges =>
        dsimp only
        unfold edgeIn
        simp [hn]
  have hVNS : getValidNextStatusesJs c = getValidNextStatuses c := by
    unfold getValidNextStatusesJs getValidNextStatuses
    rw [htl]
    cases hST : STATUS_TRANSITIONS c with
    | none => rfl
    | some edges => rfl
  have hFR : getValidNextStatusesForRoleJs c r =
      getValidNextStatusesForRole c r := by
    unfold getValidNextStatusesForRoleJs getValidNextStatusesForRole
    rw [htl]
    cases hST : STATUS_TRANSITIONS c with
    | none => rfl
    | some edges => rfl
  have hCRP : canRolePerformTransitionJs c n r =
      canRolePerformTransition c n r := by
    unfold canRolePerformTransitionJs canRolePerformTransition
    rw [hIV, htl]
    by_cases hv : isValidTransition c n = true
    · have hguard : ¬((!isValidTransition c n) = true) := by rw [hv]; simp
      rw [if_neg hguard, if_neg hguard]
      cases hST : STATUS_TRANSITIONS c with
      | none => rfl
      | some edges =>
        dsimp only
        unfold edgeRead
        cases hle : lookupEdge edges n with
        | some roles => rfl
        | none =>
          dsimp only
          rw [if_neg hn]
    · have hguard : (!isValidTransition c n) = true := by
        simp only [Bool.not_eq_true] at hv
        rw [hv]
        decide
      rw [if_pos hguard, if_pos hguard]
  have hmsg : noEdgeMsgJs c n = noEdgeMsg c n := by
    unfold noEdgeMsgJs noEdgeMsg
    rw [hVNS]
  have hVT : validateTransitionJs c n r = validateTransition c n r := by
    unfold validateTransitionJs validateTransition
    rw [hIV, hCRP, hmsg, htl]
    by_cases hcn : c = n
    · rw [if_pos hcn, if_pos hcn]
    · rw [if_neg hcn, if_neg hcn]
      by_cases hv : isValidTransition c n = true
      · have hguard : ¬((!isValidTransition c n) = true) := by rw [hv]; simp
        rw [if_neg hguard, if_neg hguard]
        cases hcr : canRolePerformTransition c n r with
        | none => rfl
        | some b =>
          cases b with
          | true => rfl
          | false =>
            dsimp only
            cases hST : STATUS_TRANSITIONS c with
            | none => rfl
            | some edges =>
              dsimp only
              unfold edgeRead
              cases hle : lookupEdge edges n with
              | some roles => rfl
              | none =>
                dsimp only
                rw [if_neg hn]
      · have hguard : (!isValidTransition c n) = true := by
          simp only [Bool.not_eq_true] at hv
          rw [hv]
          decide
        rw [if_pos hguard, if_pos hguard]
  exact ⟨hIV, hVNS, hFR, hCRP, hVT⟩

/-- C10 counterexample: JavaScript prototype-chain lookup falsifies the
claim.  "toString" is outside the JOB_STATUS enumeration, yet the `in` test
on the empty BILLED entry finds it on Object.prototype, so
isValidTransition(BILLED, "toString") returns true instead of false;
validating that transition then reads the inherited function and calls
includes on it, so validateTransition(BILLED, "toString", ADMIN) throws a
TypeError (`none`) instead of returning a denial verdict; and the unknown
status "toString" does not behave like a terminal status either, since the
table lookup at "toString" yields the truthy inherited member and
isValidTransition("toString", "name") returns true. -/
theorem c10_counterexample_prototype_chain :
    ("toString" : String) ∉ JOB_STATUS_values ∧
    isValidTransitionJs BILLED "toString" = true ∧
    canRolePerformTransitionJs BILLED "toString" ADMIN = none ∧
    validateTransitionJs BILLED "toString" ADMIN = none ∧
    tableLookup "toString" = TableVal.protoMember "toString" ∧
    isValidTransitionJs "toString" "name" = true := by
  decide

/-- C10 amended: for every current-status string outside both the JOB_STATUS
enumeration and the Object.prototype property names, and for every requested
status and role string, the evaluator neither throws nor finds a transition:
the table lookup is undefined, isValidTransition returns false,
getValidNextStatuses and getValidNextStatusesForRole return the empty list,
the role check returns false, the valid-transitions text reads terminal, and
validateTransition returns the SameStatus denial on a self-transition and
the NoSuchEdge denial otherwise — such an unknown status behaves exactly
like a terminal status.  For status strings naming Object.prototype members
the prototype chain defeats this (see the counterexample). -/
theorem c10_unknown_nonproto_status_terminal :
    ∀ s, s ∉ JOB_STATUS_values → s ∉ PROTO_KEYS → ∀ x r : String,
      tableLookup s = TableVal.undef ∧
      isValidTransitionJs s x = false ∧
      getValidNextStatusesJs s = [] ∧
      getValidNextStatusesForRoleJs s r = [] ∧
      canRolePerformTransitionJs s x r = some false ∧
      validNextText (getValidNextStatusesJs s) = "none (terminal state)" ∧
      validateTransitionJs s x r =
        some (if s = x then ⟨false, some "Job is already in this status"⟩
              else ⟨false, some (noEdgeMsgJs s x)⟩) := by
  intro s hs hp x r
  simp only [JOB_STATUS_values, List.mem_cons, List.not_mem_nil, or_false,
    not_or] at hs
  obtain ⟨h1, h2, h3, h4, h5, h6⟩ := hs
  have hST : tableLookup s = TableVal.undef := by
    unfold tableLookup
    rw [if_neg h1, if_neg h2, if_neg h3, if_neg h4, if_neg h5, if_neg h6,
      if_neg hp]
  have hIV : isValidTransitionJs s x = false := by
    unfold isValidTransitionJs
    by_cases hsx : s = x
    · rw [if_pos hsx]
    · rw [if_neg hsx, hST]
  have hVN : getValidNextStatusesJs s = [] := by
    unfold getValidNextStatusesJs
    rw [hST]
  refine ⟨hST, hIV, hVN, ?_, ?_, ?_, ?_⟩
  · unfold getValidNextStatusesForRoleJs
    rw [hST]
  · unfold canRolePerformTransitionJs
    simp [hIV]
  · rw [hVN]
    decide
  · unfold validateTransitionJs
    by_cases hsx : s = x
    · rw [if_pos hsx, if_pos hsx]
    · rw [if_neg hsx, if_neg hsx]
      simp [hIV]

theorem c10_unknown_nonproto_status_terminal_witness :
    DISPATCHED ∉ JOB_STATUS_values ∧
    DISPATCHED ∉ PROTO_KEYS ∧
    isValidTransitionJs DISPATCHED "toString" = false ∧
    getValidNextStatusesJs DISPATCHED = [] ∧
    getValidNextStatusesForRoleJs DISPATCHED OFFICE_MANAGER = [] ∧
    canRolePerformTransitionJs DISPATCHED "toString" ADMIN = some false ∧
    validateTransitionJs DISPATCHED "toString" ADMIN =
      some (if DISPATCHED = "toString"
            then ⟨false, some "Job is already in this status"⟩
            else ⟨false, some (noEdgeMsgJs DISPATCHED "toString")⟩) := by
  have h := c10_unknown_nonproto_status_terminal DISPATCHED (by decide)
    (by decide) "toString" ADMIN
  exact ⟨by decide, by decide, h.2.1, h.2.2.1, h.2.2.2.1, h.2.2.2.2.1,
    h.2.2.2.2.2.2⟩
